import Mathlib

/-!
# Verification of the wandern MySQL provider

A shallow embedding of `src/wandern/databases/mysql.py`:

* `parse_params_from_dsn` / `validate_parsed_params` — the DSN parser and the
  parameter validator/normalizer, including a model of the parts of CPython's
  `urllib.parse.urlparse` / `parse_qs` that the source relies on;
* `MySQLProvider.connect` — the connection factory wrapping failures into
  `ConnectError`;
* the tracking-table operations `migrate_up`, `migrate_down`,
  `get_head_revision`, `list_migrations`, modelled as pure functions over the
  list of bookkeeping rows, with SQL `LIKE` modelled by an explicit matcher.

Python runtime values that can be a string, an integer, a boolean or `None`
are embedded as `PyValue`; a `TypedDict` with optional keys is embedded as a
structure with `Option` fields (a field is "present" iff it is not `none`).
-/

namespace Wandern

/-- A Python runtime value as it can appear in the connection-params dict:
a string, an integer, a boolean, or `None`. -/
inductive PyValue where
  | str (s : String)
  | int (n : Int)
  | bool (b : Bool)
  | pynone
deriving DecidableEq, Repr

/-- Model of Python `str(v)` / f-string interpolation of a value. -/
def pyStr : PyValue → String
  | .str s => s
  | .int n => toString n
  | .bool b => if b then "True" else "False"
  | .pynone => "None"

/-- Model of Python `str.lower()` (ASCII case folding suffices here). -/
def pyLower (s : String) : String := String.mk (s.data.map Char.toLower)

/-- Decimal value of a list of digit characters. -/
def digitsToNat (l : List Char) : Nat :=
  l.foldl (fun a c => 10 * a + (c.toNat - 48)) 0

/-- Model of Python `int(v)` as used on the `port` entry: an `int` passes
through, a `bool` becomes 0/1, a string of an optional sign and decimal
digits (surrounding whitespace allowed) converts, everything else raises
(`ValueError`/`TypeError`, both caught by the source). PEP-515 underscores
are not modelled. -/
def pyToInt : PyValue → Option Int
  | .int n => some n
  | .bool b => some (if b then 1 else 0)
  | .pynone => none
  | .str s =>
    let l := (s.data.dropWhile Char.isWhitespace).reverse.dropWhile Char.isWhitespace |>.reverse
    match l with
    | '-' :: rest =>
      if rest ≠ [] ∧ rest.all Char.isDigit then some (-(digitsToNat rest : Int)) else none
    | '+' :: rest =>
      if rest ≠ [] ∧ rest.all Char.isDigit then some (digitsToNat rest : Int) else none
    | l =>
      if l ≠ [] ∧ l.all Char.isDigit then some (digitsToNat l : Int) else none

/-- Embedding of the `MySQLConnectionParams` TypedDict of the source: `host`
and `port` are required keys, every other key is optional (`none` = key
absent).  `port` and the three boolean keys hold `PyValue`s because before
validation they may be strings (from the DSN query) rather than their final
type. -/
structure MySQLConnectionParams where
  host : String
  port : PyValue
  user : Option String := none
  password : Option String := none
  database : Option String := none
  autocommit : Option PyValue := none
  ssl_disabled : Option PyValue := none
  use_pure : Option PyValue := none
deriving DecidableEq, Repr

/-- The three members of the source's `BOOLEAN_PARAM_KEYS` set. -/
inductive BoolParam where
  | autocommit
  | ssl_disabled
  | use_pure
deriving DecidableEq, Repr

/-- The Python-side name of a boolean parameter key. -/
def BoolParam.paramName : BoolParam → String
  | .autocommit => "autocommit"
  | .ssl_disabled => "ssl_disabled"
  | .use_pure => "use_pure"

/-- Read the field of `MySQLConnectionParams` selected by a boolean key. -/
def getBoolParam : BoolParam → MySQLConnectionParams → Option PyValue
  | .autocommit, p => p.autocommit
  | .ssl_disabled, p => p.ssl_disabled
  | .use_pure, p => p.use_pure

/-- Write the field of `MySQLConnectionParams` selected by a boolean key. -/
def setBoolParam : BoolParam → Option PyValue → MySQLConnectionParams → MySQLConnectionParams
  | .autocommit, v, p => { p with autocommit := v }
  | .ssl_disabled, v, p => { p with ssl_disabled := v }
  | .use_pure, v, p => { p with use_pure := v }

/-- `BOOLEAN_PARAM_KEYS` — the source's set literal; Python set iteration
order is unspecified, and the three keys are handled independently, so the
literal's order is used. -/
def BOOLEAN_PARAM_KEYS : List BoolParam := [.autocommit, .ssl_disabled, .use_pure]

/-- The strings whose lowercase form coerces to `True`
(`('true', '1', 'yes', 'on')` in the source). -/
def truthyStrings : List String := ["true", "1", "yes", "on"]

/-- The body of the boolean-coercion loop of `validate_parsed_params`
(lines 118–122 of the source) for one present value: a string is coerced by
membership of its lowercase form in `truthyStrings`, a boolean is left
unchanged, anything else raises `ValueError` naming the parameter and the
value. -/
def coerceBoolField (name : String) (v : PyValue) : Except String PyValue :=
  match v with
  | .str s => .ok (.bool (truthyStrings.contains (pyLower s)))
  | .bool _ => .ok v
  | _ => .error ("Invalid value for boolean parameter '" ++ name ++ "': " ++ pyStr v)

/-- The `for param in BOOLEAN_PARAM_KEYS` loop of `validate_parsed_params`:
each key that is present is coerced in place; an invalid value aborts with
the `ValueError` of `coerceBoolField`. -/
def applyBoolCoercions : List BoolParam → MySQLConnectionParams → Except String MySQLConnectionParams
  | [], p => .ok p
  | k :: rest, p =>
    match getBoolParam k p with
    | none => applyBoolCoercions rest p
    | some v =>
      match coerceBoolField k.paramName v with
      | .error e => .error e
      | .ok v' => applyBoolCoercions rest (setBoolParam k (some v') p)

/-- Embedding of `validate_parsed_params` (source lines 92–124): work on a
copy, coerce `port` with `int(...)` (failure → `Invalid port value: ...`),
check the range `1..65535` (failure → `Port must be between 1 and 65535,
got: ...`), then run the boolean-coercion loop. -/
def validate_parsed_params (params_dict : MySQLConnectionParams) : Except String MySQLConnectionParams :=
  match pyToInt params_dict.port with
  | none => .error ("Invalid port value: " ++ pyStr params_dict.port)
  | some n =>
    if 1 ≤ n ∧ n ≤ 65535 then
      applyBoolCoercions BOOLEAN_PARAM_KEYS { params_dict with port := .int n }
    else
      .error ("Port must be between 1 and 65535, got: " ++ toString n)

end Wandern

namespace Wandern

/-- Projections of a params record after a `port` update: the boolean fields
are untouched. -/
theorem getBoolParam_setPort (q : BoolParam) (p : MySQLConnectionParams) (x : PyValue) :
    getBoolParam q { p with port := x } = getBoolParam q p := by
  cases q <;> rfl

/-- C4: for each boolean parameter in `{autocommit, ssl_disabled, use_pure}`
present in the input to `validate_parsed_params` (the other two absent, port
coercible and in range): a string whose lowercase form is one of
`"true","1","yes","on"` is coerced to `true`; any other string is coerced to
`false`; a boolean value passes through unchanged; and any value that is
neither a string nor a boolean makes validation fail with an error naming the
parameter and the value. -/
theorem c4_boolean_coercion (p : BoolParam) (v : PyValue) (params : MySQLConnectionParams)
    (n : Int) (hport : pyToInt params.port = some n) (hn : 1 ≤ n ∧ n ≤ 65535)
    (hthis : getBoolParam p params = some v)
    (hothers : ∀ q : BoolParam, q ≠ p → getBoolParam q params = none) :
    (∀ s, v = .str s → truthyStrings.contains (pyLower s) = true →
      validate_parsed_params params =
        .ok (setBoolParam p (some (.bool true)) { params with port := .int n })) ∧
    (∀ s, v = .str s → truthyStrings.contains (pyLower s) = false →
      validate_parsed_params params =
        .ok (setBoolParam p (some (.bool false)) { params with port := .int n })) ∧
    (∀ b, v = .bool b →
      validate_parsed_params params =
        .ok (setBoolParam p (some (.bool b)) { params with port := .int n })) ∧
    ((∀ s, v ≠ .str s) → (∀ b, v ≠ .bool b) →
      validate_parsed_params params =
        .error ("Invalid value for boolean parameter '" ++ p.paramName ++ "': " ++ pyStr v)) := by
  have hval : validate_parsed_params params =
      applyBoolCoercions BOOLEAN_PARAM_KEYS { params with port := .int n } := by
    rw [validate_parsed_params, hport]
    simp only [if_pos hn]
  cases p <;>
    [ (have h2 := hothers .ssl_disabled (by decide); have h3 := hothers .use_pure (by decide));
      (have h2 := hothers .autocommit (by decide); have h3 := hothers .use_pure (by decide));
      (have h2 := hothers .autocommit (by decide); have h3 := hothers .ssl_disabled (by decide))] <;>
  · simp only [getBoolParam] at hthis h2 h3
    refine ⟨?_, ?_, ?_, ?_⟩
    · rintro s rfl hs
      simp at hs
      simp [hval, applyBoolCoercions, BOOLEAN_PARAM_KEYS, getBoolParam, setBoolParam,
        coerceBoolField, hthis, h2, h3, hs]
    · rintro s rfl hs
      simp at hs
      simp [hval, applyBoolCoercions, BOOLEAN_PARAM_KEYS, getBoolParam, setBoolParam,
        coerceBoolField, hthis, h2, h3, hs]
    · rintro b rfl
      simp [hval, applyBoolCoercions, BOOLEAN_PARAM_KEYS, getBoolParam, setBoolParam,
        coerceBoolField, hthis, h2, h3]
    · intro hs hb
      have hv : ∀ name, coerceBoolField name v =
          .error ("Invalid value for boolean parameter '" ++ name ++ "': " ++ pyStr v) := by
        intro name
        cases v with
        | str s => exact absurd rfl (hs s)
        | bool b => exact absurd rfl (hb b)
        | int m => rfl
        | pynone => rfl
      simp [hval, applyBoolCoercions, BOOLEAN_PARAM_KEYS, getBoolParam, setBoolParam,
        BoolParam.paramName, hthis, h2, h3, hv]

/-- Witness for C4 at concrete inputs: `autocommit="TRUE"` validates to
`true`, and an integer `autocommit` is rejected naming the parameter. -/
theorem c4_boolean_coercion_witness :
    validate_parsed_params { host := "h", port := .int 3306, autocommit := some (.str "TRUE") } =
      .ok { host := "h", port := .int 3306, autocommit := some (.bool true) } ∧
    validate_parsed_params { host := "h", port := .int 3306, autocommit := some (.int 123) } =
      .error "Invalid value for boolean parameter 'autocommit': 123" := by
  constructor
  · have h := (c4_boolean_coercion .autocommit (.str "TRUE")
      { host := "h", port := .int 3306, autocommit := some (.str "TRUE") } 3306 rfl
      (by decide) rfl (by intro q hq; cases q <;> first | rfl | exact absurd rfl hq)).1
      "TRUE" rfl (by decide)
    rw [h]; rfl
  · have h := ((c4_boolean_coercion .autocommit (.int 123)
      { host := "h", port := .int 3306, autocommit := some (.int 123) } 3306 rfl
      (by decide) rfl (by intro q hq; cases q <;> first | rfl | exact absurd rfl hq)).2.2.2
      (by intro s h; cases h) (by intro b h; cases h))
    rw [h]; rfl

/-- C5: `validate_parsed_params` fails with a message naming the offending
value when the port cannot be coerced to an integer; fails with a range
message naming the value for any coerced integer outside `[1, 65535]`; and
on the port given as the string `"3306"` (no boolean keys present) succeeds
with the integer port `3306`. -/
theorem c5_port_validation :
    (∀ params : MySQLConnectionParams, pyToInt params.port = none →
      validate_parsed_params params = .error ("Invalid port value: " ++ pyStr params.port)) ∧
    (∀ params : MySQLConnectionParams, ∀ n : Int, pyToInt params.port = some n →
      ¬(1 ≤ n ∧ n ≤ 65535) →
      validate_parsed_params params =
        .error ("Port must be between 1 and 65535, got: " ++ toString n)) ∧
    (∀ params : MySQLConnectionParams, params.port = .str "3306" →
      (∀ q : BoolParam, getBoolParam q params = none) →
      validate_parsed_params params = .ok { params with port := .int 3306 }) := by
  refine ⟨?_, ?_, ?_⟩
  · intro params h
    rw [validate_parsed_params, h]
  · intro params n h hn
    rw [validate_parsed_params, h]
    simp only [if_neg hn]
  · intro params h hq
    have h1 := hq .autocommit
    have h2 := hq .ssl_disabled
    have h3 := hq .use_pure
    simp only [getBoolParam] at h1 h2 h3
    have hcoerce : pyToInt params.port = some 3306 := by rw [h]; decide
    rw [validate_parsed_params, hcoerce]
    simp [applyBoolCoercions, BOOLEAN_PARAM_KEYS, getBoolParam, h1, h2, h3]

/-- Witness for C5: concrete failures for an uncoercible port and for ports
`0` and `70000`, and success for the string port `"3306"`. -/
theorem c5_port_validation_witness :
    validate_parsed_params { host := "h", port := .str "zzz" } =
      .error "Invalid port value: zzz" ∧
    validate_parsed_params { host := "h", port := .int 0 } =
      .error "Port must be between 1 and 65535, got: 0" ∧
    validate_parsed_params { host := "h", port := .int 70000 } =
      .error "Port must be between 1 and 65535, got: 70000" ∧
    validate_parsed_params { host := "h", port := .str "3306" } =
      .ok { host := "h", port := .int 3306 } := by
  refine ⟨?_, ?_, ?_, ?_⟩
  · rw [c5_port_validation.1 _ (by decide)]; rfl
  · rw [c5_port_validation.2.1 { host := "h", port := .int 0 } 0 rfl (by decide)]; rfl
  · rw [c5_port_validation.2.1 { host := "h", port := .int 70000 } 70000 rfl (by decide)]; rfl
  · exact c5_port_validation.2.2 _ rfl (by intro q; cases q <;> rfl)

end Wandern

namespace Wandern

/-- Characters before the first occurrence of `c` (Python `partition`'s first
component). -/
def beforeFirst (c : Char) (l : List Char) : List Char := l.takeWhile (· ≠ c)

/-- Characters after the first occurrence of `c`, or `none` when `c` does not
occur (Python `partition`'s last component together with the found flag). -/
def afterFirst (c : Char) (l : List Char) : Option (List Char) :=
  match l.dropWhile (· ≠ c) with
  | [] => none
  | _ :: rest => some rest

/-- The part of a netloc after the last `'@'` — CPython
`ParseResult._hostinfo`'s `netloc.rpartition('@')[2]` (the whole netloc when
there is no `'@'`). -/
def hostinfoOf (netloc : List Char) : List Char :=
  (netloc.reverse.takeWhile (· ≠ '@')).reverse

/-- The part of a netloc before the last `'@'`, or `none` when there is no
`'@'` — CPython `ParseResult._userinfo`. -/
def userinfoOf (netloc : List Char) : Option (List Char) :=
  match netloc.reverse.dropWhile (· ≠ '@') with
  | [] => none
  | _ :: rest => some rest.reverse

/-- Value of an ASCII hex digit, `none` otherwise. -/
def hexDigitVal (c : Char) : Option Nat :=
  if '0' ≤ c ∧ c ≤ '9' then some (c.toNat - 48)
  else if 'a' ≤ c ∧ c ≤ 'f' then some (c.toNat - 87)
  else if 'A' ≤ c ∧ c ≤ 'F' then some (c.toNat - 55)
  else none

/-- Model of `urllib.parse.unquote(s.replace('+', ' '))` as applied by
`parse_qs` to each query name and value: `'+'` becomes a space and `%XX`
hex escapes are decoded (invalid escapes pass through unchanged; multi-byte
UTF-8 percent sequences are modelled byte-by-byte, which agrees with CPython
on ASCII). -/
def unquotePlus : List Char → List Char
  | [] => []
  | '+' :: rest => ' ' :: unquotePlus rest
  | '%' :: a :: b :: rest =>
    match hexDigitVal a, hexDigitVal b with
    | some ha, some hb => Char.ofNat (16 * ha + hb) :: unquotePlus rest
    | _, _ => '%' :: unquotePlus (a :: b :: rest)
  | c :: rest => c :: unquotePlus rest

/-- Split a query string on `'&'` (CPython `parse_qsl`'s
`qs.split(separator)`). -/
def splitAmp (l : List Char) : List (List Char) :=
  l.splitOn '&'

/-- Model of `urllib.parse.parse_qsl(query, strict_parsing=True,
keep_blank_values=True)`: each `'&'`-separated field must contain `'='`
(otherwise `ValueError: bad query field: ...`); the name and value around the
first `'='` are unquoted; blank values are kept. -/
def parseQsl (query : String) : Except String (List (String × String)) :=
  go (splitAmp query.data)
where
  go : List (List Char) → Except String (List (String × String))
    | [] => .ok []
    | field :: rest =>
      match afterFirst '=' field with
      | none => .error ("bad query field: '" ++ String.mk field ++ "'")
      | some value =>
        match go rest with
        | .error e => .error e
        | .ok tail =>
          .ok ((String.mk (unquotePlus (beforeFirst '=' field)),
                String.mk (unquotePlus value)) :: tail)

/-- Group a `parse_qsl` pair list into the dict returned by `parse_qs`:
one entry per distinct key in first-occurrence order, collecting all values
of that key in query order. -/
def groupPairs : List (String × String) → List (String × List String)
  | [] => []
  | (k, v) :: rest =>
    (k, v :: (rest.filter (fun e => e.1 = k)).map (·.2)) ::
      groupPairs (rest.filter (fun e => e.1 ≠ k))
termination_by l => l.length
decreasing_by
  exact Nat.lt_succ_of_le (List.length_filter_le _ _)

/-- One iteration of the query-parameter loop of `parse_params_from_dsn`
(source lines 77–86): a boolean key stores the raw string value, the keys
`user`/`password`/`database` override earlier values, every other key is
ignored. -/
def applyQueryParam (k v : String) (p : MySQLConnectionParams) : MySQLConnectionParams :=
  if k = "autocommit" then { p with autocommit := some (.str v) }
  else if k = "ssl_disabled" then { p with ssl_disabled := some (.str v) }
  else if k = "use_pure" then { p with use_pure := some (.str v) }
  else if k = "user" then { p with user := some v }
  else if k = "password" then { p with password := some v }
  else if k = "database" then { p with database := some v }
  else p

/-- The query-parameter loop of `parse_params_from_dsn` (source lines
71–86): iterate the grouped parameters in dict order; a missing or empty
first value raises `Empty value for query parameter: <key>`, otherwise the
first value is applied. -/
def applyQueryParams : List (String × List String) → MySQLConnectionParams →
    Except String MySQLConnectionParams
  | [], p => .ok p
  | (k, vs) :: rest, p =>
    match vs with
    | [] => .error ("Empty value for query parameter: " ++ k)
    | v :: _ =>
      if v = "" then .error ("Empty value for query parameter: " ++ k)
      else applyQueryParams rest (applyQueryParam k v p)

/-- The components of CPython `urlparse` that the source reads, for a URL
whose scheme is `mysql`: the authority, the path, and the query (the
fragment is split off and discarded). -/
structure UrlParts where
  netloc : String
  path : String
  query : String
deriving DecidableEq, Repr

/-- Model of `urlparse` on a string starting with `mysql://` (the caller has
already checked the prefix): the netloc runs to the first `'/'`, `'?'` or
`'#'`; the fragment is everything after the first `'#'` of the remainder;
the query is everything after the first `'?'` of what is left.  Bracketed
IPv6 hosts are not modelled. -/
def urlparseMysql (dsn : String) : UrlParts :=
  let rest := dsn.data.drop 8
  let netloc := rest.takeWhile (fun c => !(c == '/' || c == '?' || c == '#'))
  let after := rest.dropWhile (fun c => !(c == '/' || c == '?' || c == '#'))
  let beforeFrag := beforeFirst '#' after
  { netloc := String.mk netloc
    path := String.mk (beforeFirst '?' beforeFrag)
    query := String.mk ((afterFirst '?' beforeFrag).getD []) }

/-- CPython `ParseResult.hostname`: the hostinfo up to the first `':'`,
lower-cased, or `None` when empty. -/
def UrlParts.hostname (u : UrlParts) : Option String :=
  let h := beforeFirst ':' (hostinfoOf u.netloc.data)
  if h = [] then none else some (pyLower (String.mk h))

/-- CPython `ParseResult.port`: `None` when there is no `':'` after the host
or nothing follows it; otherwise `int(port, 10)` (modelled for plain digit
strings), raising `ValueError` for a non-numeric or out-of-range value. -/
def UrlParts.portResult (u : UrlParts) : Except String (Option Nat) :=
  match afterFirst ':' (hostinfoOf u.netloc.data) with
  | none => .ok none
  | some ps =>
    if ps = [] then .ok none
    else if ps.all Char.isDigit then
      let n := digitsToNat ps
      if n ≤ 65535 then .ok (some n)
      else .error "Port out of range 0-65535"
    else .error ("Port could not be cast to integer value as '" ++ String.mk ps ++ "'")

/-- CPython `ParseResult.username`: the userinfo up to the first `':'`
(`None` when the netloc has no `'@'`). -/
def UrlParts.username (u : UrlParts) : Option String :=
  (userinfoOf u.netloc.data).map (fun ui => String.mk (beforeFirst ':' ui))

/-- CPython `ParseResult.password`: the userinfo after its first `':'`
(`None` when the netloc has no `'@'` or the userinfo has no `':'`). -/
def UrlParts.password (u : UrlParts) : Option String :=
  (userinfoOf u.netloc.data).bind (fun ui => (afterFirst ':' ui).map String.mk)

/-- Python `s.startswith(pre)`. -/
def pyStartswith (pre s : String) : Bool := pre.data.isPrefixOf s.data

/-- Python `path.strip('/')`. -/
def stripSlashes (l : List Char) : List Char :=
  ((l.dropWhile (· = '/')).reverse.dropWhile (· = '/')).reverse

/-- Embedding of `parse_params_from_dsn` (source lines 29–90): check the
`mysql://` prefix, run `urlparse`, require host and port (`parsed_dsn.port`
itself can raise for a malformed port, uncaught by the source), populate the
optional `user`/`password`/`database` keys only when truthy, then process a
non-empty query under strict rules, wrapping any query `ValueError` as
`Failed to parse query parameters: ...`. -/
def parse_params_from_dsn (dsn : String) : Except String MySQLConnectionParams :=
  if pyStartswith "mysql://" dsn = false then
    .error "DSN string must start with mysql://"
  else
    let u := urlparseMysql dsn
    match u.hostname with
    | none => .error "Host is required in DSN"
    | some host =>
      match u.portResult with
      | .error e => .error e
      | .ok none => .error "Port is required in DSN"
      | .ok (some 0) => .error "Port is required in DSN"
      | .ok (some n) =>
        let p0 : MySQLConnectionParams := { host := host, port := .int (n : Int) }
        let p1 := match u.username with
          | some s => if s ≠ "" then { p0 with user := some s } else p0
          | none => p0
        let p2 := match u.password with
          | some s => if s ≠ "" then { p1 with password := some s } else p1
          | none => p1
        let p3 :=
          if u.path ≠ "" ∧ stripSlashes u.path.data ≠ [] then
            { p2 with database := some (String.mk (u.path.data.dropWhile (· = '/'))) }
          else p2
        if u.query = "" then .ok p3
        else
          match parseQsl u.query with
          | .error e => .error ("Failed to parse query parameters: " ++ e)
          | .ok pairs =>
            match applyQueryParams (groupPairs pairs) p3 with
            | .error e => .error ("Failed to parse query parameters: " ++ e)
            | .ok p4 => .ok p4

end Wandern

namespace Wandern

theorem takeWhile_append_of_forall {p : Char → Bool} {l₁ : List Char} (l₂ : List Char)
    (h : ∀ a ∈ l₁, p a = true) : (l₁ ++ l₂).takeWhile p = l₁ ++ l₂.takeWhile p := by
  induction l₁ with
  | nil => rfl
  | cons a l ih =>
    simp [List.takeWhile_cons, h a (List.mem_cons_self a l), ih
      (fun b hb => h b (List.mem_cons_of_mem a hb))]

theorem dropWhile_append_of_forall {p : Char → Bool} {l₁ : List Char} (l₂ : List Char)
    (h : ∀ a ∈ l₁, p a = true) : (l₁ ++ l₂).dropWhile p = l₂.dropWhile p := by
  induction l₁ with
  | nil => rfl
  | cons a l ih =>
    simp only [List.cons_append, List.dropWhile_cons, h a (List.mem_cons_self a l), if_true, ih
      (fun b hb => h b (List.mem_cons_of_mem a hb))]

theorem takeWhile_of_forall {p : Char → Bool} {l : List Char}
    (h : ∀ a ∈ l, p a = true) : l.takeWhile p = l := by
  simpa using takeWhile_append_of_forall (p := p) [] h

theorem dropWhile_of_forall {p : Char → Bool} {l : List Char}
    (h : ∀ a ∈ l, p a = true) : l.dropWhile p = [] := by
  simpa using dropWhile_append_of_forall (p := p) [] h

theorem beforeFirst_append_notMem {c : Char} {l₁ : List Char} (l₂ : List Char)
    (h : c ∉ l₁) : beforeFirst c (l₁ ++ c :: l₂) = l₁ := by
  rw [beforeFirst, takeWhile_append_of_forall _ (fun a ha => by
    simp only [ne_eq, decide_eq_true_eq]; rintro rfl; exact h ha)]
  simp [List.takeWhile_cons]

theorem afterFirst_append_notMem {c : Char} {l₁ : List Char} (l₂ : List Char)
    (h : c ∉ l₁) : afterFirst c (l₁ ++ c :: l₂) = some l₂ := by
  rw [afterFirst, dropWhile_append_of_forall _ (fun a ha => by
    simp only [ne_eq, decide_eq_true_eq]; rintro rfl; exact h ha)]
  simp [List.dropWhile_cons]

theorem beforeFirst_notMem {c : Char} {l : List Char} (h : c ∉ l) :
    beforeFirst c l = l := by
  rw [beforeFirst, takeWhile_of_forall (fun a ha => by
    simp only [ne_eq, decide_eq_true_eq]; rintro rfl; exact h ha)]

theorem afterFirst_notMem {c : Char} {l : List Char} (h : c ∉ l) :
    afterFirst c l = none := by
  rw [afterFirst, dropWhile_of_forall (fun a ha => by
    simp only [ne_eq, decide_eq_true_eq]; rintro rfl; exact h ha)]

theorem hostinfoOf_notMem {netloc : List Char} (h : '@' ∉ netloc) :
    hostinfoOf netloc = netloc := by
  rw [hostinfoOf, takeWhile_of_forall (fun a ha => by
    simp only [ne_eq, decide_eq_true_eq]
    rintro rfl; exact h (List.mem_reverse.mp ha)), List.reverse_reverse]

theorem userinfoOf_notMem {netloc : List Char} (h : '@' ∉ netloc) :
    userinfoOf netloc = none := by
  rw [userinfoOf, dropWhile_of_forall (fun a ha => by
    simp only [ne_eq, decide_eq_true_eq]
    rintro rfl; exact h (List.mem_reverse.mp ha))]

/-- The query loop errors at the first parameter whose value list is missing
or starts with the empty string, naming that parameter. -/
theorem applyQueryParams_empty_value (k : String) (vs : List String)
    (post : List (String × List String)) :
    ∀ pre (p : MySQLConnectionParams),
    (∀ e ∈ pre, ∃ v rest, e.2 = v :: rest ∧ v ≠ "") →
    (vs.head? = none ∨ vs.head? = some "") →
    applyQueryParams (pre ++ (k, vs) :: post) p =
      .error ("Empty value for query parameter: " ++ k) := by
  intro pre
  induction pre with
  | nil =>
    intro p _ hvs
    cases vs with
    | nil => rfl
    | cons v rest =>
      rcases hvs with h | h
      · simp at h
      · simp only [List.head?_cons, Option.some.injEq] at h
        subst h
        simp [applyQueryParams]
  | cons e pre ih =>
    intro p hpre hvs
    obtain ⟨v, rest, he, hv⟩ := hpre e (List.mem_cons_self e pre)
    obtain ⟨ek, evs⟩ := e
    simp only at he
    subst he
    simp only [List.cons_append, applyQueryParams, if_neg hv]
    exact ih _ (fun x hx => hpre x (List.mem_cons_of_mem _ hx)) hvs

/-- C2: `parse_params_from_dsn` fails on every descriptor not starting with
`mysql://`; fails with the host-specific message when the parsed hostname is
absent; fails with the distinct port-specific message when the parsed port
is absent; and fails with a message naming the parameter when a query
parameter is present with an empty value — four distinct failure
conditions. -/
theorem c2_parse_failures :
    (∀ dsn : String, pyStartswith "mysql://" dsn = false →
      parse_params_from_dsn dsn = .error "DSN string must start with mysql://") ∧
    (∀ dsn : String, pyStartswith "mysql://" dsn = true →
      (urlparseMysql dsn).hostname = none →
      parse_params_from_dsn dsn = .error "Host is required in DSN") ∧
    (∀ dsn : String, ∀ h, pyStartswith "mysql://" dsn = true →
      (urlparseMysql dsn).hostname = some h →
      (urlparseMysql dsn).portResult = .ok none →
      parse_params_from_dsn dsn = .error "Port is required in DSN") ∧
    (∀ dsn : String, ∀ h n pairs k vs pre post,
      pyStartswith "mysql://" dsn = true →
      (urlparseMysql dsn).hostname = some h →
      (urlparseMysql dsn).portResult = .ok (some n) → n ≠ 0 →
      (urlparseMysql dsn).query ≠ "" →
      parseQsl (urlparseMysql dsn).query = .ok pairs →
      groupPairs pairs = pre ++ (k, vs) :: post →
      (∀ e ∈ pre, ∃ v rest, e.2 = v :: rest ∧ v ≠ "") →
      (vs.head? = none ∨ vs.head? = some "") →
      parse_params_from_dsn dsn =
        .error ("Failed to parse query parameters: Empty value for query parameter: " ++ k)) := by
  refine ⟨?_, ?_, ?_, ?_⟩
  · intro dsn h
    simp [parse_params_from_dsn, h]
  · intro dsn h1 h2
    simp [parse_params_from_dsn, h1, h2]
  · intro dsn h h1 h2 hp
    simp [parse_params_from_dsn, h1, h2, hp]
  · intro dsn h n pairs k vs pre post h1 h2 hp hn hq hpairs hgroup hpre hvs
    rw [parse_params_from_dsn]
    simp only [h1, Bool.true_eq_false, if_false, h2, hp]
    cases n with
    | zero => exact absurd rfl hn
    | succ m =>
      simp only [if_neg hq, hpairs, hgroup]
      rw [applyQueryParams_empty_value k vs post pre _ hpre hvs]
      rfl

/-- Witness for C2 at the four concrete descriptors exercised by the test
suite: wrong scheme, missing host, missing port, and empty query value. -/
theorem c2_parse_failures_witness :
    parse_params_from_dsn "postgresql://localhost:3306/testdb" =
      .error "DSN string must start with mysql://" ∧
    parse_params_from_dsn "mysql://:3306/testdb" =
      .error "Host is required in DSN" ∧
    parse_params_from_dsn "mysql://localhost/testdb" =
      .error "Port is required in DSN" ∧
    parse_params_from_dsn "mysql://localhost:3306/testdb?autocommit=" =
      .error "Failed to parse query parameters: Empty value for query parameter: autocommit" := by
  refine ⟨?_, ?_, ?_, ?_⟩
  · exact c2_parse_failures.1 _ (by decide)
  · exact c2_parse_failures.2.1 _ (by decide) (by decide)
  · exact c2_parse_failures.2.2.1 _ "localhost" (by decide) (by decide) rfl
  · exact c2_parse_failures.2.2.2 "mysql://localhost:3306/testdb?autocommit=" "localhost" 3306
      [("autocommit", "")] "autocommit" [""] [] [] (by decide) (by decide) rfl
      (by decide) (by decide) rfl (by simp [groupPairs]) (by simp) (Or.inr rfl)

end Wandern

namespace Wandern

/-- Decimal digit characters of a natural number, most significant first
(fuel-based recursion; `natDigits` supplies enough fuel). -/
def natDigitsAux : Nat → Nat → List Char
  | 0, _ => []
  | fuel + 1, n =>
    if n < 10 then [Nat.digitChar n]
    else natDigitsAux fuel (n / 10) ++ [Nat.digitChar (n % 10)]

/-- Decimal digit characters of a natural number (most significant first). -/
def natDigits (n : Nat) : List Char := natDigitsAux (n + 1) n

theorem digitChar_isDigit {m : Nat} (h : m < 10) : (Nat.digitChar m).isDigit = true := by
  interval_cases m <;> decide

theorem digitChar_toNat {m : Nat} (h : m < 10) : (Nat.digitChar m).toNat - 48 = m := by
  interval_cases m <;> decide

theorem digitsToNat_append_digit (l : List Char) (c : Char) :
    digitsToNat (l ++ [c]) = 10 * digitsToNat l + (c.toNat - 48) := by
  simp [digitsToNat, List.foldl_append]

theorem natDigitsAux_spec (fuel : Nat) : ∀ n, n < fuel →
    (∀ c ∈ natDigitsAux fuel n, c.isDigit = true) ∧ natDigitsAux fuel n ≠ [] ∧
      digitsToNat (natDigitsAux fuel n) = n := by
  induction fuel with
  | zero => intro n h; omega
  | succ fuel ih =>
    intro n h
    by_cases h10 : n < 10
    · simp only [natDigitsAux, if_pos h10]
      refine ⟨?_, by simp, ?_⟩
      · intro c hc
        simp only [List.mem_singleton] at hc
        subst hc
        exact digitChar_isDigit h10
      · show 10 * 0 + _ = n
        rw [Nat.mul_zero, Nat.zero_add, digitChar_toNat h10]
    · obtain ⟨hall, _, hval⟩ := ih (n / 10) (by omega)
      simp only [natDigitsAux, if_neg h10]
      refine ⟨?_, by simp, ?_⟩
      · intro c hc
        rcases List.mem_append.mp hc with hc | hc
        · exact hall c hc
        · simp only [List.mem_singleton] at hc
          subst hc
          exact digitChar_isDigit (Nat.mod_lt _ (by omega))
      · rw [digitsToNat_append_digit, hval, digitChar_toNat (Nat.mod_lt _ (by omega))]
        omega

theorem natDigits_all_digit (n : Nat) : ∀ c ∈ natDigits n, c.isDigit = true :=
  (natDigitsAux_spec (n + 1) n (by omega)).1

theorem natDigits_ne_nil (n : Nat) : natDigits n ≠ [] :=
  (natDigitsAux_spec (n + 1) n (by omega)).2.1

theorem digitsToNat_natDigits (n : Nat) : digitsToNat (natDigits n) = n :=
  (natDigitsAux_spec (n + 1) n (by omega)).2.2

/-- A digit character is none of the DSN delimiter characters. -/
theorem isDigit_not_delim {c : Char} (h : c.isDigit = true) :
    c ≠ ':' ∧ c ≠ '/' ∧ c ≠ '?' ∧ c ≠ '#' ∧ c ≠ '@' := by
  refine ⟨?_, ?_, ?_, ?_, ?_⟩ <;> (intro hc; subst hc; revert h; decide)

/-- The descriptor `mysql://<host>:<port>` (with an optional trailing slash):
a valid descriptor carrying only a scheme, a host and a port. -/
def mkHostPortDsn (host : String) (port : Nat) (slash : Bool) : String :=
  String.mk ("mysql://".data ++ ((host.data ++ ':' :: natDigits port) ++ if slash then ['/'] else []))

end Wandern

namespace Wandern

theorem urlparts_hostname_mk (netloc path q : List Char) :
    UrlParts.hostname ⟨String.mk netloc, String.mk path, String.mk q⟩ =
      if beforeFirst ':' (hostinfoOf netloc) = [] then none
      else some (pyLower (String.mk (beforeFirst ':' (hostinfoOf netloc)))) := rfl

theorem urlparts_portResult_mk_some (netloc path q ps : List Char)
    (h : afterFirst ':' (hostinfoOf netloc) = some ps) :
    UrlParts.portResult ⟨String.mk netloc, String.mk path, String.mk q⟩ =
      (if ps = [] then .ok none
       else if ps.all Char.isDigit then
         if digitsToNat ps ≤ 65535 then .ok (some (digitsToNat ps))
         else .error "Port out of range 0-65535"
       else .error ("Port could not be cast to integer value as '" ++ String.mk ps ++ "'")) := by
  rw [UrlParts.portResult]
  dsimp only
  rw [h]

theorem urlparts_username_mk_none (netloc path q : List Char)
    (h : userinfoOf netloc = none) :
    UrlParts.username ⟨String.mk netloc, String.mk path, String.mk q⟩ = none := by
  rw [UrlParts.username]
  dsimp only
  rw [h]
  rfl

theorem urlparts_password_mk_none (netloc path q : List Char)
    (h : userinfoOf netloc = none) :
    UrlParts.password ⟨String.mk netloc, String.mk path, String.mk q⟩ = none := by
  rw [UrlParts.password]
  dsimp only
  rw [h]
  rfl

/-- `parse_params_from_dsn` on a descriptor whose parsed components are a
host, a nonzero port, no credentials, an effectively empty path and an empty
query yields exactly the two required keys. -/
theorem parse_of_components (dsn : String) (host : String) (m : Nat)
    (hsw : pyStartswith "mysql://" dsn = true)
    (hhost : (urlparseMysql dsn).hostname = some host)
    (hport : (urlparseMysql dsn).portResult = .ok (some (Nat.succ m)))
    (husr : (urlparseMysql dsn).username = none)
    (hpwd : (urlparseMysql dsn).password = none)
    (hpath : ¬((urlparseMysql dsn).path ≠ "" ∧ stripSlashes (urlparseMysql dsn).path.data ≠ []))
    (hq : (urlparseMysql dsn).query = "") :
    parse_params_from_dsn dsn = .ok { host := host, port := .int ((Nat.succ m : Nat) : Int) } := by
  rw [parse_params_from_dsn]
  simp only [hsw, Bool.true_eq_false, if_false, hhost, hport, husr, hpwd, if_neg hpath, hq,
    if_pos rfl]
  rw [if_pos trivial]

end Wandern

namespace Wandern

/-- `validate_parsed_params` on a params record holding only a host and an
in-range integer port is the identity. -/
theorem validate_host_port_int (h : String) (n : Int) (h1 : 1 ≤ n) (h2 : n ≤ 65535) :
    validate_parsed_params { host := h, port := .int n } = .ok { host := h, port := .int n } := by
  rw [validate_parsed_params]
  show (if 1 ≤ n ∧ n ≤ 65535 then
      applyBoolCoercions BOOLEAN_PARAM_KEYS { host := h, port := PyValue.int n }
    else .error ("Port must be between 1 and 65535, got: " ++ toString n)) =
    .ok { host := h, port := .int n }
  rw [if_pos ⟨h1, h2⟩]
  rfl

/-- C3: for every valid descriptor carrying only a scheme, host and port
(no credentials, path empty or exactly `/`, no query), `parse` followed by
`validate` yields a `MySQLConnectionParams` populating exactly `host` and
`port`: every optional key (`user`, `password`, `database`, `autocommit`,
`ssl_disabled`, `use_pure`) is absent. -/
theorem c3_host_port_only (host : String) (port : Nat) (slash : Bool)
    (hne : host.data ≠ [])
    (hchars : ∀ c ∈ host.data, c ≠ ':' ∧ c ≠ '/' ∧ c ≠ '?' ∧ c ≠ '#' ∧ c ≠ '@')
    (h1 : 1 ≤ port) (h2 : port ≤ 65535) :
    Except.bind (parse_params_from_dsn (mkHostPortDsn host port slash)) validate_parsed_params =
      .ok { host := pyLower host, port := .int (port : Int) } := by
  have hDdig : ∀ c ∈ natDigits port, c.isDigit = true := natDigits_all_digit port
  have hpredAll : ∀ c ∈ host.data ++ ':' :: natDigits port,
      (!(c == '/' || c == '?' || c == '#')) = true := by
    intro c hc
    have hd : c ≠ '/' ∧ c ≠ '?' ∧ c ≠ '#' := by
      rcases List.mem_append.mp hc with h | h
      · obtain ⟨_, d1, d2, d3, _⟩ := hchars c h
        exact ⟨d1, d2, d3⟩
      · rcases List.mem_cons.mp h with rfl | h
        · exact ⟨by decide, by decide, by decide⟩
        · obtain ⟨_, d1, d2, d3, _⟩ := isDigit_not_delim (hDdig c h)
          exact ⟨d1, d2, d3⟩
    simp [hd.1, hd.2.1, hd.2.2]
  have hat : '@' ∉ host.data ++ ':' :: natDigits port := by
    intro hc
    rcases List.mem_append.mp hc with h | h
    · exact (hchars _ h).2.2.2.2 rfl
    · rcases List.mem_cons.mp h with h | h
      · exact absurd h.symm (by decide)
      · exact (isDigit_not_delim (hDdig _ h)).2.2.2.2 rfl
  have hcolon : ':' ∉ host.data := fun h => (hchars _ h).1 rfl
  have hsw : pyStartswith "mysql://" (mkHostPortDsn host port slash) = true := by
    rw [pyStartswith, List.isPrefixOf_iff_prefix]
    exact ⟨_, rfl⟩
  have hu : urlparseMysql (mkHostPortDsn host port slash) =
      ⟨String.mk (host.data ++ ':' :: natDigits port),
        String.mk (if slash then ['/'] else []), String.mk []⟩ := by
    have hdrop : (mkHostPortDsn host port slash).data.drop 8 =
        (host.data ++ ':' :: natDigits port) ++ (if slash then ['/'] else []) := by
      rw [show (mkHostPortDsn host port slash).data =
        "mysql://".data ++ ((host.data ++ ':' :: natDigits port) ++ if slash then ['/'] else [])
        from rfl]
      rw [show (8 : Nat) = ("mysql://".data).length from rfl]
      exact List.drop_left _ _
    rw [urlparseMysql, hdrop, takeWhile_append_of_forall _ hpredAll,
      dropWhile_append_of_forall _ hpredAll]
    cases slash with
    | false =>
      rw [show (if (false = true) then ['/'] else ([] : List Char)) = [] from rfl]
      rw [List.takeWhile_nil, List.dropWhile_nil, List.append_nil]
      rfl
    | true =>
      rw [show (if (true = true) then ['/'] else ([] : List Char)) = ['/'] from rfl]
      rw [show List.takeWhile (fun c => !(c == '/' || c == '?' || c == '#')) ['/'] = []
        from rfl]
      rw [show List.dropWhile (fun c => !(c == '/' || c == '?' || c == '#')) ['/'] = ['/']
        from rfl]
      rw [List.append_nil]
      rfl
  have hinfo : hostinfoOf (host.data ++ ':' :: natDigits port) =
      host.data ++ ':' :: natDigits port := hostinfoOf_notMem hat
  have hhost : (urlparseMysql (mkHostPortDsn host port slash)).hostname =
      some (pyLower host) := by
    rw [hu, urlparts_hostname_mk, hinfo, beforeFirst_append_notMem _ hcolon, if_neg hne]
  have hport : (urlparseMysql (mkHostPortDsn host port slash)).portResult =
      .ok (some port) := by
    rw [hu, urlparts_portResult_mk_some _ _ _ (natDigits port)
      (by rw [hinfo]; exact afterFirst_append_notMem _ hcolon)]
    rw [if_neg (natDigits_ne_nil port),
      if_pos (List.all_eq_true.mpr (fun c hc => hDdig c hc)), digitsToNat_natDigits,
      if_pos h2]
  have husr : (urlparseMysql (mkHostPortDsn host port slash)).username = none := by
    rw [hu]
    exact urlparts_username_mk_none _ _ _ (userinfoOf_notMem hat)
  have hpwd : (urlparseMysql (mkHostPortDsn host port slash)).password = none := by
    rw [hu]
    exact urlparts_password_mk_none _ _ _ (userinfoOf_notMem hat)
  have hpath : ¬((urlparseMysql (mkHostPortDsn host port slash)).path ≠ "" ∧
      stripSlashes (urlparseMysql (mkHostPortDsn host port slash)).path.data ≠ []) := by
    rw [hu]
    cases slash with
    | false => simp
    | true =>
      rw [show (if (true = true) then ['/'] else ([] : List Char)) = ['/'] from rfl]
      simp [stripSlashes]
  have hq : (urlparseMysql (mkHostPortDsn host port slash)).query = "" := by
    rw [hu]
  obtain ⟨m, rfl⟩ : ∃ m, port = Nat.succ m := ⟨port - 1, by omega⟩
  rw [parse_of_components _ _ m hsw hhost hport husr hpwd hpath hq]
  have hb : ∀ (p : MySQLConnectionParams),
      Except.bind (Except.ok p) validate_parsed_params = validate_parsed_params p :=
    fun _ => rfl
  rw [hb, validate_host_port_int _ _ (by omega) (by omega)]

/-- Witness for C3 at the concrete minimal descriptor
`mysql://localhost:3306`. -/
theorem c3_host_port_only_witness :
    Except.bind (parse_params_from_dsn "mysql://localhost:3306") validate_parsed_params =
      .ok { host := "localhost", port := .int 3306 } := by
  have h := c3_host_port_only "localhost" 3306 false (by decide) (by decide)
    (by decide) (by decide)
  have hd : mkHostPortDsn "localhost" 3306 false = "mysql://localhost:3306" := rfl
  rw [hd] at h
  rw [h]
  rfl

end Wandern

namespace Wandern

/-- The `ConnectError` raised by `MySQLProvider.connect`: the message shown
to the operator and the originating exception chained as `__cause__`
(`raise ... from exc`), kept here as the original error message. -/
structure ConnectError where
  message : String
  cause : String
deriving DecidableEq, Repr

/-- The message of the `ConnectError` built by `connect` (the two adjacent
f-string literals of source lines 147–148). -/
def connectErrorMessage (dsn : String) : String :=
  "Failed to connect to the database" ++
    "\nIs your database server running on '" ++ dsn ++ "'?"

/-- The body of the `try` block of `MySQLProvider.connect` (source lines
136–143): parse the DSN, validate the params, default `autocommit` to
`True` when absent, and hand the final params to the driver
(`mysql.connect(**connection_params)`, abstracted as the function
`driver`). -/
def connectAttempt {α : Type} (dsn : String)
    (driver : MySQLConnectionParams → Except String α) : Except String α := do
  let params ← parse_params_from_dsn dsn
  let connection_params ← validate_parsed_params params
  let connection_params :=
    if connection_params.autocommit = none then
      { connection_params with autocommit := some (.bool true) }
    else connection_params
  driver connection_params

/-- Embedding of `MySQLProvider.connect` (source lines 130–149): any
exception from parsing, validation or the driver is wrapped into a single
`ConnectError` whose message names the original DSN, with the original
exception chained as the cause. -/
def connect {α : Type} (dsn : String)
    (driver : MySQLConnectionParams → Except String α) : Except ConnectError α :=
  match connectAttempt dsn driver with
  | .ok conn => .ok conn
  | .error exc => .error { message := connectErrorMessage dsn, cause := exc }

/-- C6: whenever the connection pipeline (descriptor parsing, parameter
validation, or the underlying driver call) fails with some exception `e`,
`connect` fails with a single `ConnectError` whose message contains the
original descriptor string verbatim and whose chained cause is exactly
`e`. -/
theorem c6_connect_wraps_failures {α : Type} (dsn : String)
    (driver : MySQLConnectionParams → Except String α) (e : String)
    (h : connectAttempt dsn driver = .error e) :
    connect dsn driver = .error { message := connectErrorMessage dsn, cause := e } ∧
    ∃ before after, connectErrorMessage dsn = before ++ dsn ++ after := by
  constructor
  · rw [connect, h]
  · exact ⟨"Failed to connect to the database" ++ "\nIs your database server running on '",
      "'?", by rw [connectErrorMessage, String.append_assoc]⟩

/-- Witness for C6: a descriptor with the wrong scheme makes `connect` fail
with the wrapped `ConnectError` carrying the parser's `ValueError` as its
cause and the DSN in its message. -/
theorem c6_connect_wraps_failures_witness :
    connect (α := Unit) "bad" (fun _ => .error "driver unused") =
      .error { message := "Failed to connect to the database" ++
                 "\nIs your database server running on 'bad'?",
               cause := "DSN string must start with mysql://" } ∧
    ∃ before after,
      connectErrorMessage "bad" = before ++ "bad" ++ after := by
  have h := c6_connect_wraps_failures (α := Unit) "bad" (fun _ => .error "driver unused")
    "DSN string must start with mysql://" rfl
  exact ⟨by rw [h.1]; rfl, h.2⟩

end Wandern

namespace Wandern

/-- Modelled from the spec: the `Revision` record of `wandern.models` (that
module is not under `src/`): one schema-migration unit with its id, backward
link, message, tags, author, engine timestamp and optional raw SQL. -/
structure Revision where
  revision_id : String
  down_revision_id : Option String
  message : String
  tags : List String
  author : Option String
  created_at : Nat
  up_sql : Option String := none
  down_sql : Option String := none
deriving DecidableEq, Repr

/-- One row of the tracking table (schema of `create_table_migration`,
source lines 157–166): `revision_id` is the primary key; `message`, `tags`
and `author` are nullable; `created_at` is always engine-stamped by
`migrate_up`, so it is modelled as a plain timestamp. -/
structure TrackRow where
  revision_id : String
  down_revision_id : Option String
  message : Option String
  tags : Option String
  author : Option String
  created_at : Nat
deriving DecidableEq, Repr

/-- Model of Python `s.split(",")`. -/
def pySplitComma (s : String) : List String :=
  (s.data.splitOn ',').map String.mk

/-- Model of Python `",".join(ts)`. -/
def pyJoinComma (ts : List String) : String :=
  String.mk ([','].intercalate (ts.map String.data))

/-- The tag encoding of `migrate_up` (source line 230):
`",".join(revision.tags) if revision.tags else None`. -/
def encodeTags (tags : List String) : Option String :=
  if tags = [] then none else some (pyJoinComma tags)

/-- The tag decoding of `get_head_revision` / `list_migrations` (source
lines 195 and 308): `row["tags"].split(",") if row["tags"] else []`. -/
def decodeTags : Option String → List String
  | none => []
  | some s => if s = "" then [] else pySplitComma s

/-- Decoding of one tracking row back into a `Revision` (source lines
197–206 and 310–321): split the tags, substitute `""` for an absent
message.  The `row["created_at"] or datetime.now()` fallback never fires
because `migrate_up` always writes a timestamp. -/
def decodeRow (r : TrackRow) : Revision :=
  { revision_id := r.revision_id
    down_revision_id := r.down_revision_id
    message := r.message.getD ""
    tags := decodeTags r.tags
    author := r.author
    created_at := r.created_at }

/-- The bookkeeping row inserted by `migrate_up` (source lines 223–234). -/
def upRow (revision : Revision) (now : Nat) : TrackRow :=
  { revision_id := revision.revision_id
    down_revision_id := revision.down_revision_id
    message := some revision.message
    tags := encodeTags revision.tags
    author := revision.author
    created_at := now }

/-- Embedding of `MySQLProvider.migrate_up` (source lines 208–238) acting
on the tracking table: insert one bookkeeping row for the revision, tags
delimiter-joined (`None` for an empty tag list) and `created_at` stamped
with the current time `now`, returning the affected row count.  The INSERT
violates the `revision_id` primary key when a row for the id already exists
(MySQL raises `IntegrityError`).  `revision.up_sql` runs against the
application schema, not the tracking table, and is outside this model. -/
def migrate_up (table : List TrackRow) (revision : Revision) (now : Nat) :
    Except String (List TrackRow × Nat) :=
  if table.any (fun r => r.revision_id = revision.revision_id) then
    .error "Duplicate entry"
  else
    .ok (table ++ [upRow revision now], 1)

/-- Embedding of `MySQLProvider.migrate_down` (source lines 240–259) acting
on the tracking table: `DELETE FROM ... WHERE revision_id = ...`, returning
the new table and the affected row count.  `revision.down_sql` runs against
the application schema and is outside this model. -/
def migrate_down (table : List TrackRow) (revision : Revision) :
    List TrackRow × Nat :=
  (table.filter (fun r => r.revision_id ≠ revision.revision_id),
   (table.filter (fun r => r.revision_id = revision.revision_id)).length)

/-- Insertion step of `ORDER BY created_at DESC` (descending, deterministic
model of the sort). -/
def insertByCreatedDesc (r : TrackRow) : List TrackRow → List TrackRow
  | [] => [r]
  | x :: xs =>
    if x.created_at < r.created_at then r :: x :: xs else x :: insertByCreatedDesc r xs

/-- `ORDER BY created_at DESC` over the tracking rows. -/
def sortByCreatedDesc (rows : List TrackRow) : List TrackRow :=
  rows.foldr insertByCreatedDesc []

/-- Embedding of `MySQLProvider.get_head_revision` (source lines 181–206):
`SELECT * ... ORDER BY created_at DESC LIMIT 1`, decoded as a `Revision`,
or `None` on an empty table. -/
def get_head_revision (table : List TrackRow) : Option Revision :=
  (sortByCreatedDesc table).head?.map decodeRow

end Wandern

namespace Wandern

/-- SQL `LIKE` matching over character lists: `%` matches any character
sequence (the rest of the pattern must match some suffix), `_` matches any
single character, every other pattern character matches itself (no escape
sequences occur in the source's patterns). -/
def likeMatch : List Char → List Char → Bool
  | [], s => s.isEmpty
  | p :: ps, s =>
    if p = '%' then s.tails.any (fun suf => likeMatch ps suf)
    else if p = '_' then
      match s with
      | [] => false
      | _ :: s' => likeMatch ps s'
    else
      match s with
      | [] => false
      | c :: s' => (p = c) && likeMatch ps s'

/-- The per-tag condition built by `list_migrations` (source lines 283–289):
`tags IS NOT NULL AND (tags = %s OR tags LIKE '<tag>,%' OR tags LIKE
'%,<tag>' OR tags LIKE '%,<tag>,%')`. -/
def tagCondition (tag : String) (stored : Option String) : Bool :=
  match stored with
  | none => false
  | some s =>
    (s = tag) || likeMatch (tag.data ++ [',', '%']) s.data
      || likeMatch ('%' :: ',' :: tag.data) s.data
      || likeMatch ('%' :: ',' :: tag.data ++ [',', '%']) s.data

/-- The whole tags filter: OR of the per-tag conditions over all requested
tags (source line 291). -/
def tagsFilterMatch (tags : List String) (stored : Option String) : Bool :=
  tags.any (fun t => tagCondition t stored)

/-- Python truthiness of an optional string argument (`if author:`): absent
or empty is falsy. -/
def pyTruthyStr : Option String → Bool
  | none => false
  | some s => s ≠ ""

/-- Python truthiness of an optional list argument (`if tags:`): absent or
empty is falsy. -/
def pyTruthyList : Option (List String) → Bool
  | none => false
  | some l => l ≠ []

/-- The WHERE clause assembled by `list_migrations` (source lines 271–297)
applied to one row: each filter contributes a conjunct only when its
argument is truthy (a `datetime` argument is always truthy when present). -/
def rowMatches (author : Option String) (tags : Option (List String))
    (createdAt : Option Nat) (r : TrackRow) : Bool :=
  (if pyTruthyStr author then decide (r.author = author) else true) &&
  (if pyTruthyList tags then tagsFilterMatch (tags.getD []) r.tags else true) &&
  (match createdAt with
   | some t => decide (t ≤ r.created_at)
   | none => true)

/-- Embedding of `MySQLProvider.list_migrations` (source lines 261–323):
filter by the supplied author/tags/minimum-timestamp filters, order by
`created_at` descending, decode each row. -/
def list_migrations (table : List TrackRow) (author : Option String)
    (tags : Option (List String)) (createdAt : Option Nat) : List Revision :=
  (sortByCreatedDesc (table.filter (rowMatches author tags createdAt))).map decodeRow

end Wandern


namespace Wandern

/-- C1: whenever `migrate_up(r)` succeeds (its bookkeeping INSERT does not
violate the primary key), running `migrate_down(r)` on the result removes
exactly the inserted row: the tracking table returns to its previous state,
and in particular holds no row whose `revision_id` equals
`r.revision_id`. -/
theorem c1_up_then_down_removes_row (table : List TrackRow) (revision : Revision)
    (now : Nat) (t1 : List TrackRow) (n : Nat)
    (h : migrate_up table revision now = .ok (t1, n)) :
    (migrate_down t1 revision).1 = table ∧
    ∀ r ∈ (migrate_down t1 revision).1, r.revision_id ≠ revision.revision_id := by
  rw [migrate_up] at h
  by_cases hdup : table.any (fun r => r.revision_id = revision.revision_id)
  · rw [if_pos hdup] at h
    cases h
  · rw [if_neg hdup] at h
    have hall : ∀ r ∈ table, r.revision_id ≠ revision.revision_id := by
      simpa using hdup
    injection h with h'
    have ht1 : t1 = table ++ [upRow revision now] :=
      ((Prod.mk.injEq _ _ _ _).mp h').1.symm
    have hfix : (migrate_down t1 revision).1 = table := by
      rw [migrate_down, ht1, List.filter_append]
      rw [List.filter_eq_self.mpr (fun r hr => by simpa using hall r hr)]
      rw [show List.filter (fun r => decide (r.revision_id ≠ revision.revision_id))
        [upRow revision now] = [] from by simp [upRow]]
      rw [List.append_nil]
    exact ⟨hfix, fun r hr => hall r (hfix ▸ hr)⟩

/-- Witness for C1: a concrete revision applied to the empty table and then
reversed leaves no trace. -/
theorem c1_up_then_down_removes_row_witness :
    (migrate_down
        [upRow { revision_id := "abc", down_revision_id := none, message := "m",
                 tags := ["x"], author := some "a", created_at := 0 } 5]
        { revision_id := "abc", down_revision_id := none, message := "m",
          tags := ["x"], author := some "a", created_at := 0 }).1 = [] ∧
    ∀ r ∈ (migrate_down
        [upRow { revision_id := "abc", down_revision_id := none, message := "m",
                 tags := ["x"], author := some "a", created_at := 0 } 5]
        { revision_id := "abc", down_revision_id := none, message := "m",
          tags := ["x"], author := some "a", created_at := 0 }).1,
      r.revision_id ≠ "abc" := by
  have h := c1_up_then_down_removes_row []
    { revision_id := "abc", down_revision_id := none, message := "m",
      tags := ["x"], author := some "a", created_at := 0 } 5
    [upRow { revision_id := "abc", down_revision_id := none, message := "m",
             tags := ["x"], author := some "a", created_at := 0 } 5] 1 rfl
  exact ⟨h.1, fun r hr => h.2 r hr⟩

/-- C10: falsy filter arguments are no filter at all — `list_migrations`
with an empty author string, or with an empty tags list, returns exactly
what it returns with the corresponding filter absent. -/
theorem c10_falsy_filters_omitted (table : List TrackRow) :
    (∀ tags createdAt, list_migrations table (some "") tags createdAt =
        list_migrations table none tags createdAt) ∧
    (∀ author createdAt, list_migrations table author (some []) createdAt =
        list_migrations table author none createdAt) := by
  constructor
  · intro tags createdAt
    rw [list_migrations, list_migrations]
    congr 2
  · intro author createdAt
    rw [list_migrations, list_migrations]
    congr 2

end Wandern

namespace Wandern

theorem mem_insertByCreatedDesc {x r : TrackRow} {l : List TrackRow} :
    x ∈ insertByCreatedDesc r l ↔ x = r ∨ x ∈ l := by
  induction l with
  | nil => simp [insertByCreatedDesc]
  | cons a l ih =>
    rw [insertByCreatedDesc]
    split
    · simp
    · rw [List.mem_cons, ih, List.mem_cons]
      tauto

theorem mem_sortByCreatedDesc {x : TrackRow} {l : List TrackRow} :
    x ∈ sortByCreatedDesc l ↔ x ∈ l := by
  induction l with
  | nil => simp [sortByCreatedDesc]
  | cons a l ih =>
    rw [sortByCreatedDesc, List.foldr_cons, mem_insertByCreatedDesc, List.mem_cons]
    rw [sortByCreatedDesc] at ih
    rw [ih]

theorem insertByCreatedDesc_ne_nil (r : TrackRow) (l : List TrackRow) :
    insertByCreatedDesc r l ≠ [] := by
  cases l with
  | nil => simp [insertByCreatedDesc]
  | cons a l =>
    rw [insertByCreatedDesc]
    split <;> simp

theorem sortByCreatedDesc_eq_nil {l : List TrackRow} :
    sortByCreatedDesc l = [] ↔ l = [] := by
  cases l with
  | nil => simp [sortByCreatedDesc]
  | cons a l =>
    rw [sortByCreatedDesc, List.foldr_cons]
    simp [insertByCreatedDesc_ne_nil]

theorem sortByCreatedDesc_head_max :
    ∀ (l : List TrackRow) (h : TrackRow) (t : List TrackRow),
      sortByCreatedDesc l = h :: t → ∀ x ∈ l, x.created_at ≤ h.created_at := by
  intro l
  induction l with
  | nil => intro h t hl; cases hl
  | cons a l ih =>
    intro h t hl x hx
    rw [sortByCreatedDesc, List.foldr_cons] at hl
    rcases List.mem_cons.mp hx with rfl | hx
    · -- x = a, the inserted element
      cases hs : sortByCreatedDesc l with
      | nil =>
        rw [show l.foldr insertByCreatedDesc [] = sortByCreatedDesc l from rfl, hs,
          insertByCreatedDesc] at hl
        injection hl with h1 _
        subst h1
        exact Nat.le_refl _
      | cons b t' =>
        rw [show l.foldr insertByCreatedDesc [] = sortByCreatedDesc l from rfl, hs,
          insertByCreatedDesc] at hl
        split at hl
        · injection hl with h1 _
          subst h1
          exact Nat.le_refl _
        · rename_i hge
          injection hl with h1 _
          subst h1
          exact Nat.le_of_not_lt hge
    · -- x comes from l
      cases hs : sortByCreatedDesc l with
      | nil =>
        exact absurd (sortByCreatedDesc_eq_nil.mp hs ▸ hx) (List.not_mem_nil x)
      | cons b t' =>
        have hxb : x.created_at ≤ b.created_at := ih b t' hs x hx
        rw [show l.foldr insertByCreatedDesc [] = sortByCreatedDesc l from rfl, hs,
          insertByCreatedDesc] at hl
        split at hl
        · rename_i hlt
          injection hl with h1 _
          subst h1
          exact Nat.le_trans hxb (Nat.le_of_lt hlt)
        · injection hl with h1 _
          subst h1
          exact hxb

/-- C7: `get_head_revision` on an empty tracking table returns the explicit
"none" result; on a non-empty table it returns the decoding of a stored row
whose `created_at` is maximal among all rows. -/
theorem c7_head_revision (table : List TrackRow) :
    (table = [] → get_head_revision table = none) ∧
    (table ≠ [] → ∃ row, row ∈ table ∧
      get_head_revision table = some (decodeRow row) ∧
      ∀ r ∈ table, r.created_at ≤ row.created_at) := by
  constructor
  · rintro rfl
    rfl
  · intro hne
    cases hs : sortByCreatedDesc table with
    | nil => exact absurd (sortByCreatedDesc_eq_nil.mp hs) hne
    | cons b t =>
      refine ⟨b, ?_, ?_, ?_⟩
      · exact mem_sortByCreatedDesc.mp (hs ▸ List.mem_cons_self b t)
      · rw [get_head_revision, hs]
        rfl
      · exact sortByCreatedDesc_head_max table b t hs

/-- Witness for C7: the empty table yields `none`; on a concrete two-row
table the head is a stored row with the maximal timestamp. -/
theorem c7_head_revision_witness :
    get_head_revision [] = none ∧
    (∃ row, row ∈ [(⟨"r1", none, some "m1", none, none, 3⟩ : TrackRow),
        ⟨"r2", some "r1", some "m2", none, none, 7⟩] ∧
      get_head_revision [(⟨"r1", none, some "m1", none, none, 3⟩ : TrackRow),
        ⟨"r2", some "r1", some "m2", none, none, 7⟩] = some (decodeRow row) ∧
      ∀ r ∈ [(⟨"r1", none, some "m1", none, none, 3⟩ : TrackRow),
        ⟨"r2", some "r1", some "m2", none, none, 7⟩],
        r.created_at ≤ row.created_at) := by
  exact ⟨(c7_head_revision []).1 rfl,
    (c7_head_revision _).2 (by simp)⟩

end Wandern

namespace Wandern

theorem string_mk_data (s : String) : String.mk s.data = s := rfl

/-- C9: the tag encoding round-trips — for every tag list whose elements do
not contain the delimiter and whose delimiter-joined form is non-empty,
encoding on insert (`migrate_up`) followed by decoding on read
(`list_migrations` / `get_head_revision`) restores exactly the same
elements; and an empty tag set encodes as the absent value (not the empty
string) and decodes back to the empty set. -/
theorem c9_tag_roundtrip :
    (∀ tags : List String, (∀ t ∈ tags, ',' ∉ t.data) → pyJoinComma tags ≠ "" →
      decodeTags (encodeTags tags) = tags) ∧
    encodeTags [] = none ∧ decodeTags none = [] := by
  refine ⟨?_, rfl, rfl⟩
  intro tags hcomma hjoin
  have hne : tags ≠ [] := by
    rintro rfl
    exact hjoin rfl
  rw [encodeTags, if_neg hne, decodeTags]
  rw [if_neg hjoin]
  rw [pyJoinComma, pySplitComma]
  rw [show (String.mk ([','].intercalate (tags.map String.data))).data =
    [','].intercalate (tags.map String.data) from rfl]
  rw [List.splitOn_intercalate (tags.map String.data) ',' (by
      intro l hl
      obtain ⟨t, ht, rfl⟩ := List.mem_map.mp hl
      exact hcomma t ht)
    (by simpa using hne)]
  rw [List.map_map]
  exact List.map_id'' (fun t => rfl) tags

/-- Witness for C9: the concrete tag list `["x", "y"]` survives the
round-trip. -/
theorem c9_tag_roundtrip_witness :
    decodeTags (encodeTags ["x", "y"]) = ["x", "y"] ∧
    encodeTags [] = none ∧ decodeTags none = [] :=
  ⟨c9_tag_roundtrip.1 ["x", "y"] (by decide) (by decide),
   c9_tag_roundtrip.2⟩

end Wandern


namespace Wandern

theorem likeMatch_nil_eq (s : List Char) : likeMatch [] s = s.isEmpty := rfl

theorem likeMatch_cons_eq (c : Char) (ps s : List Char) :
    likeMatch (c :: ps) s =
      (if c = '%' then s.tails.any (fun suf => likeMatch ps suf)
       else if c = '_' then
         (match s with
          | [] => false
          | _ :: s' => likeMatch ps s')
       else
         (match s with
          | [] => false
          | d :: s' => (c = d) && likeMatch ps s')) := rfl

theorem likeMatch_nil_iff (s : List Char) : likeMatch [] s = true ↔ s = [] := by
  rw [likeMatch_nil_eq]
  simp [List.isEmpty_iff]

theorem likeMatch_lit_nil {c : Char} (ps : List Char) (h1 : c ≠ '%') (h2 : c ≠ '_') :
    likeMatch (c :: ps) [] = false := by
  rw [likeMatch_cons_eq, if_neg h1, if_neg h2]

theorem likeMatch_lit_cons {c : Char} (ps : List Char) (d : Char) (s : List Char)
    (h1 : c ≠ '%') (h2 : c ≠ '_') :
    likeMatch (c :: ps) (d :: s) = ((c = d) && likeMatch ps s) := by
  rw [likeMatch_cons_eq, if_neg h1, if_neg h2]

theorem likeMatch_pct_eq (ps s : List Char) :
    likeMatch ('%' :: ps) s = s.tails.any (fun suf => likeMatch ps suf) := by
  rw [likeMatch_cons_eq, if_pos rfl]

/-- A pattern fragment with no wildcard characters. -/
def litOK (lit : List Char) : Prop := ∀ c ∈ lit, c ≠ '%' ∧ c ≠ '_'

theorem likeMatch_lit_append (lit : List Char) (hl : litOK lit) :
    ∀ (p s : List Char),
      (likeMatch (lit ++ p) s = true ↔ ∃ s', s = lit ++ s' ∧ likeMatch p s' = true) := by
  induction lit with
  | nil =>
    intro p s
    constructor
    · intro h
      exact ⟨s, rfl, h⟩
    · rintro ⟨s', rfl, h⟩
      exact h
  | cons c lit ih =>
    intro p s
    have hc := hl c (List.mem_cons_self c lit)
    have hrest : litOK lit := fun d hd => hl d (List.mem_cons_of_mem c hd)
    rw [List.cons_append]
    cases s with
    | nil =>
      rw [likeMatch_lit_nil _ hc.1 hc.2]
      simp
    | cons d s =>
      rw [likeMatch_lit_cons _ _ _ hc.1 hc.2, Bool.and_eq_true, decide_eq_true_eq,
        ih hrest p s]
      constructor
      · rintro ⟨rfl, s', rfl, h⟩
        exact ⟨s', rfl, h⟩
      · rintro ⟨s', hs, h⟩
        rw [List.cons_append] at hs
        injection hs with hd1 hd2
        exact ⟨hd1.symm, s', hd2, h⟩

theorem likeMatch_lit_exact (lit s : List Char) (hl : litOK lit) :
    likeMatch lit s = true ↔ s = lit := by
  have h := likeMatch_lit_append lit hl [] s
  rw [List.append_nil] at h
  rw [h]
  constructor
  · rintro ⟨s', rfl, hnil⟩
    rw [likeMatch_nil_iff] at hnil
    subst hnil
    simp
  · rintro rfl
    exact ⟨[], by simp, by rw [likeMatch_nil_iff]⟩

theorem likeMatch_pct_cons (p s : List Char) :
    likeMatch ('%' :: p) s = true ↔ ∃ s', s' <:+ s ∧ likeMatch p s' = true := by
  rw [likeMatch_pct_eq, List.any_eq_true]
  constructor
  · rintro ⟨suf, hsuf, h⟩
    exact ⟨suf, (List.mem_tails _ _).mp hsuf, h⟩
  · rintro ⟨s', hs', h⟩
    exact ⟨s', (List.mem_tails _ _).mpr hs', h⟩

theorem likeMatch_pct_end (s : List Char) : likeMatch ['%'] s = true := by
  rw [show (['%'] : List Char) = '%' :: [] from rfl, likeMatch_pct_cons]
  exact ⟨[], List.nil_suffix, by rw [likeMatch_nil_iff]⟩

/-- The pattern `<t>,%` matches exactly the strings of the form `t,r`. -/
theorem likeMatch_tag_pre (t s : List Char) (ht : litOK t) :
    likeMatch (t ++ [',', '%']) s = true ↔ ∃ r, s = t ++ (',' :: r) := by
  have h2 : litOK (t ++ [',']) := by
    intro c hc
    rcases List.mem_append.mp hc with h | h
    · exact ht c h
    · simp only [List.mem_singleton] at h
      subst h
      exact ⟨by decide, by decide⟩
  rw [show t ++ [',', '%'] = (t ++ [',']) ++ ['%'] from by simp,
    likeMatch_lit_append _ h2]
  constructor
  · rintro ⟨s', hs, -⟩
    exact ⟨s', by simpa using hs⟩
  · rintro ⟨r, rfl⟩
    exact ⟨r, by simp, likeMatch_pct_end r⟩

/-- The pattern `%,<t>` matches exactly the strings of the form `r,t`. -/
theorem likeMatch_tag_suf (t s : List Char) (ht : litOK t) :
    likeMatch ('%' :: ',' :: t) s = true ↔ ∃ r, s = r ++ (',' :: t) := by
  have h2 : litOK (',' :: t) := by
    intro c hc
    rcases List.mem_cons.mp hc with rfl | h
    · exact ⟨by decide, by decide⟩
    · exact ht c h
  rw [likeMatch_pct_cons]
  constructor
  · rintro ⟨s', hsuf, h⟩
    rw [likeMatch_lit_exact _ _ h2] at h
    subst h
    obtain ⟨r, hr⟩ := hsuf
    exact ⟨r, hr.symm⟩
  · rintro ⟨r, rfl⟩
    exact ⟨',' :: t, ⟨r, rfl⟩, (likeMatch_lit_exact _ _ h2).mpr rfl⟩

/-- The pattern `%,<t>,%` matches exactly the strings of the form
`r₁,t,r₂`. -/
theorem likeMatch_tag_mid (t s : List Char) (ht : litOK t) :
    likeMatch (('%' :: ',' :: t) ++ [',', '%']) s = true ↔
      ∃ r₁ r₂, s = r₁ ++ (',' :: (t ++ (',' :: r₂))) := by
  have h2 : litOK (',' :: t) := by
    intro c hc
    rcases List.mem_cons.mp hc with rfl | h
    · exact ⟨by decide, by decide⟩
    · exact ht c h
  rw [show ('%' :: ',' :: t) ++ [',', '%'] = '%' :: ((',' :: t) ++ [',', '%'])
    from by simp, likeMatch_pct_cons]
  constructor
  · rintro ⟨s', hsuf, h⟩
    rw [likeMatch_tag_pre _ _ h2] at h
    obtain ⟨r₂, rfl⟩ := h
    obtain ⟨r₁, hr⟩ := hsuf
    exact ⟨r₁, r₂, by rw [← hr]; simp⟩
  · rintro ⟨r₁, r₂, rfl⟩
    refine ⟨(',' :: t) ++ (',' :: r₂), ⟨r₁, by simp⟩, ?_⟩
    rw [likeMatch_tag_pre _ _ h2]
    exact ⟨r₂, rfl⟩

end Wandern

namespace Wandern

theorem modifyHead_append_left {α : Type} (f : α → α) (l₁ l₂ : List α)
    (h : l₁ ≠ []) : List.modifyHead f (l₁ ++ l₂) = List.modifyHead f l₁ ++ l₂ := by
  cases l₁ with
  | nil => exact absurd rfl h
  | cons a l => rfl

theorem splitOn_append (x : Char) (a b : List Char) :
    (a ++ (x :: b)).splitOn x = a.splitOn x ++ b.splitOn x := by
  induction a with
  | nil =>
    simp only [List.nil_append, List.splitOn, List.splitOnP_cons, beq_self_eq_true, if_pos]
    rfl
  | cons a0 a ih =>
    by_cases h : a0 = x
    · subst h
      simp only [List.cons_append, List.splitOn, List.splitOnP_cons, beq_self_eq_true,
        if_pos] at ih ⊢
      rw [show List.splitOnP (· == a0) (a ++ (a0 :: b)) =
        List.splitOnP (· == a0) a ++ List.splitOnP (· == a0) b from ih]
    · have hbeq : (a0 == x) = false := beq_eq_false_iff_ne.mpr h
      simp only [List.cons_append, List.splitOn, List.splitOnP_cons, hbeq] at ih ⊢
      rw [if_neg (by simp), if_neg (by simp)]
      rw [show List.splitOnP (· == x) (a ++ (x :: b)) =
        List.splitOnP (· == x) a ++ List.splitOnP (· == x) b from ih]
      rw [modifyHead_append_left _ _ _ (List.splitOnP_ne_nil _ a)]
  
theorem splitOn_of_notMem {x : Char} {a : List Char} (h : x ∉ a) :
    a.splitOn x = [a] := by
  rw [List.splitOn]
  exact List.splitOnP_eq_single _ _ (fun c hc => by
    simp only [beq_iff_eq]
    rintro rfl
    exact h hc)

theorem splitOn_first_of_notMem {x : Char} {t : List Char} (r : List Char) (h : x ∉ t) :
    (t ++ (x :: r)).splitOn x = t :: r.splitOn x := by
  rw [List.splitOn, List.splitOnP_first _ _ (fun c hc => by
      simp only [beq_iff_eq]
      rintro rfl
      exact h hc) x (by simp)]
  rfl

theorem intercalate_cons_ne (x : Char) (a : List Char) (rest : List (List Char))
    (h : rest ≠ []) :
    [x].intercalate (a :: rest) = a ++ (x :: [x].intercalate rest) := by
  cases rest with
  | nil => exact absurd rfl h
  | cons b rest =>
    rw [List.intercalate, List.intercalate, List.intersperse_cons_cons, List.flatten_cons,
      List.flatten_cons]
    simp

theorem intercalate_append_ne (x : Char) (l₁ l₂ : List (List Char))
    (h1 : l₁ ≠ []) (h2 : l₂ ≠ []) :
    [x].intercalate (l₁ ++ l₂) = [x].intercalate l₁ ++ (x :: [x].intercalate l₂) := by
  induction l₁ with
  | nil => exact absurd rfl h1
  | cons a l₁ ih =>
    cases l₁ with
    | nil =>
      rw [List.singleton_append, intercalate_cons_ne _ _ _ h2]
      rw [show [x].intercalate [a] = a from by simp [List.intercalate]]
    | cons a' l₁' =>
      rw [List.cons_append, intercalate_cons_ne _ _ _ (by simp),
        intercalate_cons_ne _ _ _ (by simp), ih (by simp)]
      simp

/-- Whole-element membership in a comma-split string is exactly the
disjunction of the four shapes matched by the SQL conditions: the whole
string, a prefix before the delimiter, a suffix after the delimiter, or a
middle element between two delimiters. -/
theorem mem_splitOn_comma_iff (t s : List Char) (ht : ',' ∉ t) :
    t ∈ s.splitOn ',' ↔
      (s = t ∨ (∃ r, s = t ++ (',' :: r)) ∨ (∃ r, s = r ++ (',' :: t)) ∨
        (∃ r₁ r₂, s = r₁ ++ (',' :: (t ++ (',' :: r₂))))) := by
  constructor
  · intro hm
    obtain ⟨l₁, l₂, hsplit⟩ := List.append_of_mem hm
    have hs : s = [','].intercalate (l₁ ++ t :: l₂) := by
      rw [← hsplit, List.intercalate_splitOn]
    cases hl1 : l₁ with
    | nil =>
      cases hl2 : l₂ with
      | nil =>
        subst hl1; subst hl2
        left
        rw [hs]
        simp [List.intercalate]
      | cons b l₂' =>
        subst hl1; subst hl2
        right; left
        refine ⟨[','].intercalate (b :: l₂'), ?_⟩
        rw [hs, List.nil_append, intercalate_cons_ne _ _ _ (by simp)]
    | cons a l₁' =>
      cases hl2 : l₂ with
      | nil =>
        subst hl1; subst hl2
        right; right; left
        refine ⟨[','].intercalate (a :: l₁'), ?_⟩
        rw [hs, intercalate_append_ne ',' _ [t] (by simp) (by simp)]
        rw [show [','].intercalate [t] = t from by simp [List.intercalate]]
      | cons b l₂' =>
        subst hl1; subst hl2
        right; right; right
        refine ⟨[','].intercalate (a :: l₁'), [','].intercalate (b :: l₂'), ?_⟩
        rw [hs, intercalate_append_ne ',' _ (t :: b :: l₂') (by simp) (by simp),
          intercalate_cons_ne ',' t (b :: l₂') (by simp)]
  · rintro (rfl | ⟨r, rfl⟩ | ⟨r, rfl⟩ | ⟨r₁, r₂, rfl⟩)
    · rw [splitOn_of_notMem ht]
      exact List.mem_singleton.mpr rfl
    · rw [splitOn_first_of_notMem r ht]
      exact List.mem_cons_self _ _
    · rw [splitOn_append]
      rw [splitOn_of_notMem ht]
      exact List.mem_append.mpr (Or.inr (List.mem_singleton.mpr rfl))
    · rw [splitOn_append, splitOn_first_of_notMem r₂ ht]
      exact List.mem_append.mpr (Or.inr (List.mem_cons_self _ _))

end Wandern

namespace Wandern

/-- One tag's SQL condition holds iff the tag is a whole element of the
stored comma-delimited string (for tags free of the delimiter and of the
`LIKE` wildcards). -/
theorem tagCondition_iff_mem (t s : String)
    (h1 : ',' ∉ t.data) (h2 : '%' ∉ t.data) (h3 : '_' ∉ t.data) :
    tagCondition t (some s) = true ↔ t ∈ pySplitComma s := by
  have hlit : litOK t.data := fun c hc => ⟨fun e => h2 (e ▸ hc), fun e => h3 (e ▸ hc)⟩
  rw [tagCondition]
  simp only [Bool.or_eq_true, decide_eq_true_eq]
  rw [likeMatch_tag_pre _ _ hlit, likeMatch_tag_suf _ _ hlit, likeMatch_tag_mid _ _ hlit]
  have hmem : t ∈ pySplitComma s ↔ t.data ∈ s.data.splitOn ',' := by
    rw [pySplitComma]
    constructor
    · intro hm
      obtain ⟨x, hx, hmk⟩ := List.mem_map.mp hm
      have hx' : x = t.data := by rw [← hmk]
      exact hx' ▸ hx
    · intro hm
      exact List.mem_map.mpr ⟨t.data, hm, rfl⟩
  have hst : s = t ↔ s.data = t.data := by
    constructor
    · intro h
      rw [h]
    · intro h
      cases s
      cases t
      simp only at h
      rw [h]
  rw [hmem, mem_splitOn_comma_iff _ _ h1, hst]
  tauto

/-- C8: with a non-empty tags filter, a row matches iff its stored delimited
tag string contains at least one requested tag as a whole element — decided
by the disjunction, over all requested tags, of the four SQL patterns
(exact match, prefix before the delimiter, suffix after the delimiter,
middle element between two delimiters); a row whose tags column is NULL
never matches. -/
theorem c8_tags_filter_whole_element (ts : List String) (s : String)
    (hts : ∀ t ∈ ts, ',' ∉ t.data ∧ '%' ∉ t.data ∧ '_' ∉ t.data) :
    (tagsFilterMatch ts (some s) = true ↔ ∃ t ∈ ts, t ∈ pySplitComma s) ∧
    tagsFilterMatch ts none = false := by
  constructor
  · rw [tagsFilterMatch, List.any_eq_true]
    constructor
    · rintro ⟨t, ht, hc⟩
      obtain ⟨hc1, hc2, hc3⟩ := hts t ht
      exact ⟨t, ht, (tagCondition_iff_mem t s hc1 hc2 hc3).mp hc⟩
    · rintro ⟨t, ht, hm⟩
      obtain ⟨hc1, hc2, hc3⟩ := hts t ht
      exact ⟨t, ht, (tagCondition_iff_mem t s hc1 hc2 hc3).mpr hm⟩
  · rw [tagsFilterMatch]
    simp [tagCondition]

/-- Witness for C8: `tags=["x"]` matches the stored strings `"x"`, `"x,y"`,
`"y,x"` and `"y,x,z"`, does not match `"xy"`, and never matches a NULL tags
column. -/
theorem c8_tags_filter_whole_element_witness :
    tagsFilterMatch ["x"] (some "x") = true ∧
    tagsFilterMatch ["x"] (some "x,y") = true ∧
    tagsFilterMatch ["x"] (some "y,x") = true ∧
    tagsFilterMatch ["x"] (some "y,x,z") = true ∧
    tagsFilterMatch ["x"] (some "xy") = false ∧
    tagsFilterMatch ["x"] none = false := by
  refine ⟨?_, ?_, ?_, ?_, ?_, ?_⟩
  · exact ((c8_tags_filter_whole_element ["x"] "x" (by decide)).1).mpr
      ⟨"x", List.mem_singleton.mpr rfl, by decide⟩
  · exact ((c8_tags_filter_whole_element ["x"] "x,y" (by decide)).1).mpr
      ⟨"x", List.mem_singleton.mpr rfl, by decide⟩
  · exact ((c8_tags_filter_whole_element ["x"] "y,x" (by decide)).1).mpr
      ⟨"x", List.mem_singleton.mpr rfl, by decide⟩
  · exact ((c8_tags_filter_whole_element ["x"] "y,x,z" (by decide)).1).mpr
      ⟨"x", List.mem_singleton.mpr rfl, by decide⟩
  · cases hb : tagsFilterMatch ["x"] (some "xy") with
    | false => rfl
    | true =>
      obtain ⟨t, ht, hm⟩ :=
        ((c8_tags_filter_whole_element ["x"] "xy" (by decide)).1).mp hb
      rw [List.mem_singleton] at ht
      subst ht
      exact absurd hm (by decide)
  · exact (c8_tags_filter_whole_element ["x"] "unused" (by decide)).2

end Wandern
